import Mathlib

/-!
Verification of the execution-context primitive declared in
src/clib/context.h.  The header declares a `struct Context` of eight
machine-word fields (rip, rsp, rbx, rbp, r12, r13, r14, r15) and three
operations: `get_context` (capture, returns int), `set_context` (restore,
returns void) and `swap_context` (swap, returns void).  The register layout
and the C signatures are embedded from the header; the behaviour of the
three operations (their bodies are assembly not present under src/) is
modelled from the specification as a functional machine semantics.
-/

/-- Translation of `struct Context` from src/clib/context.h: eight
machine-word (`void *`) fields in declaration order
rip, rsp, rbx, rbp, r12, r13, r14, r15.  Machine words are modelled as
natural numbers, their contents being opaque to the primitive. -/
structure Context where
  rip : Nat
  rsp : Nat
  rbx : Nat
  rbp : Nat
  r12 : Nat
  r13 : Nat
  r14 : Nat
  r15 : Nat
deriving DecidableEq

/-- The record layout of `struct Context`, embedded from the field order in
src/clib/context.h: the fields in declaration order, as a sequence of
machine words. -/
def Context.layout (c : Context) : List Nat :=
  [c.rip, c.rsp, c.rbx, c.rbp, c.r12, c.r13, c.r14, c.r15]

/-- The callee-preserved general-purpose registers of the record, in the
order they appear in src/clib/context.h after rip and rsp. -/
def Context.preservedRegs (c : Context) : List Nat :=
  [c.rbx, c.rbp, c.r12, c.r13, c.r14, c.r15]

/-- Number of callee-preserved general-purpose registers held by
`struct Context` (rbx, rbp, r12, r13, r14, r15). -/
def numPreservedRegs : Nat := 6

/-- The three functions declared in src/clib/context.h. -/
inductive CFun where
  | get_context
  | set_context
  | swap_context
deriving DecidableEq

/-- C return types occurring in src/clib/context.h. -/
inductive CRet where
  | int
  | void
deriving DecidableEq

/-- The declared C return type of each function, embedded from the
prototypes in src/clib/context.h:
`int get_context(struct Context *c);`
`void set_context(struct Context *c);`
`void swap_context(struct Context *c1, struct Context *c2);`. -/
def declaredRet : CFun → CRet
  | .get_context => .int
  | .set_context => .void
  | .swap_context => .void

/-- Modelled from the spec: the caller-visible machine state of the single
cooperative flow of control.  `pc` is the instruction-resume-address of the
current control point (the address at which the current operation call
returns), `sp` the stack pointer, the six named fields the live
callee-preserved registers, and `mem` the memory holding `struct Context`
records, addressed by pointer. -/
structure Machine where
  pc : Nat
  sp : Nat
  rbx : Nat
  rbp : Nat
  r12 : Nat
  r13 : Nat
  r14 : Nat
  r15 : Nat
  mem : Nat → Context

/-- Modelled from the spec: the snapshot of the caller's current state that
a capture writes into a context record — instruction-resume-address, stack
pointer and the callee-preserved registers. -/
def snapshot (m : Machine) : Context :=
  ⟨m.pc, m.sp, m.rbx, m.rbp, m.r12, m.r13, m.r14, m.r15⟩

/-- Modelled from the spec: `get_context` (capture), whose body is assembly
not present under src/.  It writes the snapshot of the caller's current
state into the record at pointer `p` and delivers the discriminant 0 for
this direct pass; nothing else changes and no control transfer occurs. -/
def get_context (p : Nat) (m : Machine) : Machine × Int :=
  ({ m with mem := Function.update m.mem p (snapshot m) }, 0)

/-- Modelled from the spec: `set_context` (restore), whose body is assembly
not present under src/.  It loads the instruction-resume-address, stack
pointer and callee-preserved registers from the record at pointer `p` and
transfers control there; the paired integer is the nonzero discriminant
(conventionally 1) observed at the re-entered capture point, standing for
the capture returning a second time.  Memory is only read, never written. -/
def set_context (p : Nat) (m : Machine) : Machine × Int :=
  ({ pc := (m.mem p).rip, sp := (m.mem p).rsp,
     rbx := (m.mem p).rbx, rbp := (m.mem p).rbp,
     r12 := (m.mem p).r12, r13 := (m.mem p).r13,
     r14 := (m.mem p).r14, r15 := (m.mem p).r15,
     mem := m.mem }, 1)

/-- Modelled from the spec: `swap_context`, whose body is assembly not
present under src/.  As one indivisible operation it stores the snapshot of
the current state into the record at `p1` and then loads the state from the
record at `p2`, transferring control to that record's saved
instruction-resume-address; the paired integer is the nonzero discriminant
observed at the re-entered capture point of the target. -/
def swap_context (p1 p2 : Nat) (m : Machine) : Machine × Int :=
  ({ pc := (Function.update m.mem p1 (snapshot m) p2).rip,
     sp := (Function.update m.mem p1 (snapshot m) p2).rsp,
     rbx := (Function.update m.mem p1 (snapshot m) p2).rbx,
     rbp := (Function.update m.mem p1 (snapshot m) p2).rbp,
     r12 := (Function.update m.mem p1 (snapshot m) p2).r12,
     r13 := (Function.update m.mem p1 (snapshot m) p2).r13,
     r14 := (Function.update m.mem p1 (snapshot m) p2).r14,
     r15 := (Function.update m.mem p1 (snapshot m) p2).r15,
     mem := Function.update m.mem p1 (snapshot m) }, 1)

/-- Modelled from the spec: the operations a cooperative program can
perform on context records, used to reason about sequences of switches. -/
inductive Op where
  | get : Nat → Op
  | set : Nat → Op
  | swap : Nat → Nat → Op
deriving DecidableEq

/-- Modelled from the spec: the machine state after executing one
operation. -/
def step : Op → Machine → Machine
  | .get p, m => (get_context p m).1
  | .set p, m => (set_context p m).1
  | .swap p q, m => (swap_context p q m).1

/-- Modelled from the spec: the machine state after executing a sequence of
operations. -/
def run : List Op → Machine → Machine
  | [], m => m
  | op :: ops, m => run ops (step op m)

/-- Whether an operation restores, or swaps into, the context at pointer
`p` — a `restore(p)` or a `swap(_, p)`. -/
def restoresInto (p : Nat) : Op → Bool
  | .get _ => false
  | .set q => q == p
  | .swap _ q => q == p

/-- A concrete context record used as default memory contents in witness
machines; its saved resume address is 3. -/
def ctxBase : Context := ⟨3, 0, 0, 0, 0, 0, 0, 0⟩

/-- A concrete machine used by witnesses: control point `pc`, stack pointer
1, registers 0, and every context record in memory equal to `ctxBase`. -/
def mkMachine (pc : Nat) : Machine :=
  { pc := pc, sp := 1, rbx := 0, rbp := 0, r12 := 0, r13 := 0,
    r14 := 0, r15 := 0, mem := fun _ => ctxBase }

/-- C5: the context record is a fixed sequence of machine-word fields in
the order instruction-resume-address (rip), stack pointer (rsp), then the
six callee-preserved general-purpose registers, and its total size is
(2 + number-of-preserved-registers) = 8 machine words. -/
theorem context_record_layout (c : Context) :
    Context.layout c = [c.rip, c.rsp] ++ Context.preservedRegs c ∧
    (Context.layout c).length = 2 + numPreservedRegs ∧
    numPreservedRegs = 6 ∧
    (Context.layout c).length = 8 := by
  refine ⟨rfl, rfl, rfl, rfl⟩

/-- C9: as declared in src/clib/context.h, `swap_context` returns void
while `get_context` returns int, and void is not int: no first-pass versus
resumed discriminant is delivered to the caller of `swap_context` through
its return type. -/
theorem swap_context_ret_void :
    declaredRet CFun.swap_context = CRet.void ∧
    declaredRet CFun.get_context = CRet.int ∧
    declaredRet CFun.swap_context ≠ declaredRet CFun.get_context := by
  refine ⟨rfl, rfl, by decide⟩

/-- C8: the direct pass of a capture writes the snapshot of the caller's
state into the record at `p` and does nothing else: the control point,
stack pointer and callee-preserved registers are unchanged (no control
transfer), memory differs only by the snapshot written at `p`, the
discriminant delivered is 0, and the written record is a resumable
snapshot — restoring it transfers control back to the capture point. -/
theorem get_context_frame (p : Nat) (m : Machine) :
    ((get_context p m).1).pc = m.pc ∧
    ((get_context p m).1).sp = m.sp ∧
    ((get_context p m).1).rbx = m.rbx ∧
    ((get_context p m).1).rbp = m.rbp ∧
    ((get_context p m).1).r12 = m.r12 ∧
    ((get_context p m).1).r13 = m.r13 ∧
    ((get_context p m).1).r14 = m.r14 ∧
    ((get_context p m).1).r15 = m.r15 ∧
    ((get_context p m).1).mem = Function.update m.mem p (snapshot m) ∧
    ((get_context p m).1).mem p = snapshot m ∧
    ((set_context p (get_context p m).1).1).pc = m.pc ∧
    (get_context p m).2 = 0 := by
  refine ⟨rfl, rfl, rfl, rfl, rfl, rfl, rfl, rfl, rfl, ?_, ?_, rfl⟩
  · simp [get_context]
  · simp [get_context, set_context, snapshot]

/-- C4: capturing into `p` and immediately restoring `p` brings control
back to the capture call site with a nonzero resumed discriminant (the
direct pass having delivered 0), and every piece of caller-visible state
other than that discriminant — control point, stack pointer,
callee-preserved registers, and all of context memory as it stood at the
capture point — is unchanged. -/
theorem capture_restore_roundtrip (p : Nat) (m : Machine) :
    ((set_context p (get_context p m).1).1).pc = m.pc ∧
    ((set_context p (get_context p m).1).1).sp = m.sp ∧
    ((set_context p (get_context p m).1).1).rbx = m.rbx ∧
    ((set_context p (get_context p m).1).1).rbp = m.rbp ∧
    ((set_context p (get_context p m).1).1).r12 = m.r12 ∧
    ((set_context p (get_context p m).1).1).r13 = m.r13 ∧
    ((set_context p (get_context p m).1).1).r14 = m.r14 ∧
    ((set_context p (get_context p m).1).1).r15 = m.r15 ∧
    ((set_context p (get_context p m).1).1).mem = ((get_context p m).1).mem ∧
    (set_context p (get_context p m).1).2 ≠ 0 ∧
    (get_context p m).2 = 0 := by
  refine ⟨?_, ?_, ?_, ?_, ?_, ?_, ?_, ?_, rfl, ?_, rfl⟩ <;>
    simp [get_context, set_context, snapshot]

/-- C2: `swap_context p1 p2` is exactly the composition of capturing the
current state into `p1` followed by restoring `p2`: the single indivisible
operation produces the same machine state and the same delivered
discriminant as the two-step sequence, so no distinct intermediate state of
the composition is observable. -/
theorem swap_context_eq_capture_restore (p1 p2 : Nat) (m : Machine) :
    swap_context p1 p2 m = set_context p2 (get_context p1 m).1 := by
  rfl

/-- C1: capture delivers the discriminant 0 on the direct call; when a
context holding the snapshot written by a capture made at state m₀ is later
restored (or swapped-into, with the two pointers distinct so the target
survives the save half), control re-enters the capture point of m₀ and the
discriminant delivered there is nonzero. -/
theorem capture_discriminant (p q : Nat) (m m₀ mLater : Machine)
    (hcap : mLater.mem q = ((get_context q m₀).1).mem q)
    (hpq : p ≠ q) :
    (get_context p m).2 = 0 ∧
    ((set_context q mLater).1).pc = m₀.pc ∧
    (set_context q mLater).2 ≠ 0 ∧
    ((swap_context p q mLater).1).pc = m₀.pc ∧
    (swap_context p q mLater).2 ≠ 0 := by
  have hsnap : mLater.mem q = snapshot m₀ := by
    simpa [get_context] using hcap
  refine ⟨rfl, ?_, by simp [set_context], ?_, by simp [swap_context]⟩
  · simp [set_context, hsnap, snapshot]
  · simp [swap_context, Function.update_noteq (Ne.symm hpq), hsnap, snapshot]

/-- C1 witness: instantiation of `capture_discriminant` at pointers 0 and
1, with a machine whose record at pointer 1 holds the snapshot captured at
control point 7. -/
theorem capture_discriminant_witness :
    (get_context 0 (mkMachine 9)).2 = 0 ∧
    ((set_context 1 ((get_context 1 (mkMachine 7)).1)).1).pc = (mkMachine 7).pc ∧
    (set_context 1 ((get_context 1 (mkMachine 7)).1)).2 ≠ 0 ∧
    ((swap_context 0 1 ((get_context 1 (mkMachine 7)).1)).1).pc = (mkMachine 7).pc ∧
    (swap_context 0 1 ((get_context 1 (mkMachine 7)).1)).2 ≠ 0 :=
  capture_discriminant 0 1 (mkMachine 9) (mkMachine 7)
    ((get_context 1 (mkMachine 7)).1) rfl (by decide)

/-- C3: restoring a context that holds the snapshot of a capture made at
state m₀ transfers control to the capture point of m₀, not back to the
caller of the restore (the restore call site being a different control
point), and delivers the nonzero resumed discriminant there, as if the
original capture were returning a second time. -/
theorem restore_never_returns (p : Nat) (m m₀ : Machine)
    (hcap : m.mem p = ((get_context p m₀).1).mem p)
    (hsite : m₀.pc ≠ m.pc) :
    ((set_context p m).1).pc = m₀.pc ∧
    ((set_context p m).1).pc ≠ m.pc ∧
    (set_context p m).2 ≠ 0 := by
  have hsnap : m.mem p = snapshot m₀ := by
    simpa [get_context] using hcap
  refine ⟨?_, ?_, by simp [set_context]⟩
  · simp [set_context, hsnap, snapshot]
  · simpa [set_context, hsnap, snapshot] using hsite

/-- C3 witness: instantiation of `restore_never_returns` at pointer 2, a
capture made at control point 5 and a restore issued from control point
11. -/
theorem restore_never_returns_witness :
    ((set_context 2 { (mkMachine 11) with
        mem := ((get_context 2 (mkMachine 5)).1).mem }).1).pc = (mkMachine 5).pc ∧
    ((set_context 2 { (mkMachine 11) with
        mem := ((get_context 2 (mkMachine 5)).1).mem }).1).pc ≠
      ({ (mkMachine 11) with
        mem := ((get_context 2 (mkMachine 5)).1).mem } : Machine).pc ∧
    (set_context 2 { (mkMachine 11) with
        mem := ((get_context 2 (mkMachine 5)).1).mem }).2 ≠ 0 :=
  restore_never_returns 2
    { (mkMachine 11) with mem := ((get_context 2 (mkMachine 5)).1).mem }
    (mkMachine 5) rfl (by decide)

/-- C7: after a first capture into `p` at state m (hypothesis `hmid`),
capturing into `p` again from a later state mMid overwrites the earlier
snapshot: the record at `p` then holds the snapshot of mMid, restoring `p`
resumes at the second capture's control point with a nonzero discriminant,
and when the two capture points differ the resume point is not the first
capture's control point — only the latest capture is resumable. -/
theorem capture_overwrites (p : Nat) (m mMid : Machine)
    (hmid : mMid.mem = ((get_context p m).1).mem) :
    (((get_context p mMid).1).mem p = snapshot mMid) ∧
    ((set_context p (get_context p mMid).1).1).pc = mMid.pc ∧
    (set_context p (get_context p mMid).1).2 ≠ 0 ∧
    (m.pc ≠ mMid.pc → ((set_context p (get_context p mMid).1).1).pc ≠ m.pc) := by
  refine ⟨by simp [get_context], ?_, by simp [set_context], ?_⟩
  · simp [get_context, set_context, snapshot]
  · intro hne
    simpa [get_context, set_context, snapshot] using (Ne.symm hne)

/-- C7 witness: instantiation of `capture_overwrites` at pointer 4, a first
capture at control point 3 and a second capture at control point 8. -/
theorem capture_overwrites_witness :
    ((get_context 4 { (mkMachine 8) with
        mem := ((get_context 4 (mkMachine 3)).1).mem }).1).mem 4 =
      snapshot { (mkMachine 8) with
        mem := ((get_context 4 (mkMachine 3)).1).mem } ∧
    ((set_context 4 (get_context 4 { (mkMachine 8) with
        mem := ((get_context 4 (mkMachine 3)).1).mem }).1).1).pc =
      ({ (mkMachine 8) with
        mem := ((get_context 4 (mkMachine 3)).1).mem } : Machine).pc ∧
    (set_context 4 (get_context 4 { (mkMachine 8) with
        mem := ((get_context 4 (mkMachine 3)).1).mem }).1).2 ≠ 0 ∧
    ((mkMachine 3).pc ≠ ({ (mkMachine 8) with
        mem := ((get_context 4 (mkMachine 3)).1).mem } : Machine).pc →
      ((set_context 4 (get_context 4 { (mkMachine 8) with
        mem := ((get_context 4 (mkMachine 3)).1).mem }).1).1).pc ≠
        (mkMachine 3).pc) :=
  capture_overwrites 4 (mkMachine 3)
    { (mkMachine 8) with mem := ((get_context 4 (mkMachine 3)).1).mem } rfl

/-- C10 counterexample: when the two pointers of `swap_context` alias, the
save half writes the target record: swapping from pointer 0 to pointer 0 on
a concrete machine changes the record at pointer 0, so the universally
quantified claim that the target record is left unchanged for every pair is
false. -/
theorem swap_context_aliased_target_written :
    ((swap_context 0 0 (mkMachine 9)).1).mem 0 ≠ (mkMachine 9).mem 0 := by
  simp [swap_context, mkMachine, ctxBase, snapshot]

/-- C10 amended: `set_context` leaves all of context memory, in particular
the restored record, unchanged, and `swap_context` leaves the target record
at `p2` unchanged provided the two pointers do not alias; the restored-from
record is only read by these operations. -/
theorem restore_reads_only (p p1 p2 : Nat) (m : Machine) (hne : p1 ≠ p2) :
    ((set_context p m).1).mem = m.mem ∧
    ((swap_context p1 p2 m).1).mem p2 = m.mem p2 :=
  ⟨rfl, by simp [swap_context, Function.update_noteq (Ne.symm hne)]⟩

/-- C10 witness: instantiation of `restore_reads_only` at pointers 5 and
the distinct pair (0, 1). -/
theorem restore_reads_only_witness :
    ((set_context 5 (mkMachine 9)).1).mem = (mkMachine 9).mem ∧
    ((swap_context 0 1 (mkMachine 9)).1).mem 1 = (mkMachine 9).mem 1 :=
  restore_reads_only 5 0 1 (mkMachine 9) (by decide)

/-- Writing a snapshot of the current state into memory creates no new
record whose saved resume address is the target `t`, as long as the current
control point is not `t`: the uniqueness invariant used for the re-entry
theorem is preserved by the save half of every operation. -/
lemma inv_update (s : Machine) (t p1 p : Nat) (hpc : s.pc ≠ t)
    (hinv : ∀ q, (s.mem q).rip = t → q = p1) :
    ∀ q, (Function.update s.mem p (snapshot s) q).rip = t → q = p1 := by
  intro q hq
  by_cases hqp : q = p
  · subst hqp
    rw [Function.update_same] at hq
    exact absurd hq hpc
  · rw [Function.update_noteq hqp] at hq
    exact hinv q hq

/-- Control can reach the control point `t` along a sequence of operations
only through an operation that restores, or swaps into, the unique record
holding `t` as its saved resume address. -/
lemma reach_requires_restore (t p1 : Nat) :
    ∀ (ops : List Op) (s : Machine), s.pc ≠ t →
      (∀ q, (s.mem q).rip = t → q = p1) →
      (run ops s).pc = t → ops.any (restoresInto p1) = true := by
  intro ops
  induction ops with
  | nil =>
      intro s hpc _ hrun
      exact absurd hrun hpc
  | cons op ops ih =>
      intro s hpc hinv hrun
      rw [List.any_cons]
      cases op with
      | get p =>
          have hany : ops.any (restoresInto p1) = true :=
            ih (step (Op.get p) s) hpc (inv_update s t p1 p hpc hinv) hrun
          simp [hany]
      | set p =>
          by_cases hrt : (s.mem p).rip = t
          · have hp : p = p1 := hinv p hrt
            subst hp
            simp [restoresInto]
          · have hany : ops.any (restoresInto p1) = true :=
              ih (step (Op.set p) s) hrt hinv hrun
            simp [hany]
      | swap p q2 =>
          by_cases hrt : (Function.update s.mem p (snapshot s) q2).rip = t
          · have hq2p : q2 ≠ p := by
              intro h
              subst h
              rw [Function.update_same] at hrt
              exact hpc hrt
            rw [Function.update_noteq hq2p] at hrt
            have hq2 : q2 = p1 := hinv q2 hrt
            subst hq2
            simp [restoresInto]
          · have hany : ops.any (restoresInto p1) = true :=
              ih (step (Op.swap p q2) s) hrt (inv_update s t p1 p hpc hinv) hrun
            simp [hany]

/-- C6: on its first pass, `swap_context p1 p2` jumps immediately to the
resume address saved in the target record at `p2` and stores into `p1` the
snapshot whose resume address is the swap call site; a later restore of a
record still holding that snapshot returns control to the swap call site
with a nonzero discriminant — the same twice-returning behaviour as
capture; and, provided no other record already holds the swap call site as
its resume address, any sequence of operations after the swap brings
control back to the swap call site only if it contains a `restore(p1)` or a
`swap(_, p1)`. -/
theorem swap_twice_returning (p1 p2 : Nat) (m mLater : Machine)
    (ops : List Op)
    (hne : p1 ≠ p2)
    (huniq : ∀ q, q ≠ p1 → (m.mem q).rip ≠ m.pc)
    (hLater : mLater.mem p1 = ((swap_context p1 p2 m).1).mem p1) :
    ((swap_context p1 p2 m).1).pc = (m.mem p2).rip ∧
    ((swap_context p1 p2 m).1).mem p1 = snapshot m ∧
    ((set_context p1 mLater).1).pc = m.pc ∧
    (set_context p1 mLater).2 ≠ 0 ∧
    ((run ops ((swap_context p1 p2 m).1)).pc = m.pc →
      ops.any (restoresInto p1) = true) := by
  have hmem1 : ((swap_context p1 p2 m).1).mem p1 = snapshot m := by
    simp [swap_context]
  have hjump : ((swap_context p1 p2 m).1).pc = (m.mem p2).rip := by
    simp [swap_context, Function.update_noteq (Ne.symm hne)]
  have hsnapLater : mLater.mem p1 = snapshot m := hLater.trans hmem1
  refine ⟨hjump, hmem1, ?_, by simp [set_context], ?_⟩
  · simp [set_context, hsnapLater, snapshot]
  · intro hreach
    refine reach_requires_restore m.pc p1 ops ((swap_context p1 p2 m).1)
      ?_ ?_ hreach
    · rw [hjump]
      exact huniq p2 (Ne.symm hne)
    · intro q hq
      by_cases hqp1 : q = p1
      · exact hqp1
      · exfalso
        have hkeep : ((swap_context p1 p2 m).1).mem q = m.mem q := by
          simp [swap_context, Function.update_noteq hqp1]
        rw [hkeep] at hq
        exact huniq q hqp1 hq

/-- C6 witness: instantiation of `swap_twice_returning` at pointers 0 and
1, a swap issued from control point 10, the post-swap machine itself as the
later state, and the operation sequence consisting of the single
`restore(0)`. -/
theorem swap_twice_returning_witness :
    ((swap_context 0 1 (mkMachine 10)).1).pc = ((mkMachine 10).mem 1).rip ∧
    ((swap_context 0 1 (mkMachine 10)).1).mem 0 = snapshot (mkMachine 10) ∧
    ((set_context 0 ((swap_context 0 1 (mkMachine 10)).1)).1).pc =
      (mkMachine 10).pc ∧
    (set_context 0 ((swap_context 0 1 (mkMachine 10)).1)).2 ≠ 0 ∧
    ((run [Op.set 0] ((swap_context 0 1 (mkMachine 10)).1)).pc =
        (mkMachine 10).pc →
      ([Op.set 0]).any (restoresInto 0) = true) :=
  swap_twice_returning 0 1 (mkMachine 10) ((swap_context 0 1 (mkMachine 10)).1)
    [Op.set 0] (by decide) (fun q hq => by simp [mkMachine, ctxBase]) rfl
